import Mathlib

/-!
Shallow embedding of the result-normalization pipeline of the
"DE Workshops/Parts Finder" application (`app.py`), together with
theorems settling the specification claims about it.

The embedded fragment is `rows_from_elements` and its helpers
(`haversine_km`, `pick`, `norm`, `full_address`, the classifier chain,
the dedup pass and the final sort), plus the block list built by
`build_overpass_query`.

Modelling conventions:
* a Python tag dict is an association list `Tags` with `dict.get`
  embedded as `List.lookup`;
* Python truthiness of a string is `≠ ""`; truthiness of a nullable
  float is "present and ≠ 0" (`truthy`);
* Python floats are modelled by an arbitrary linearly ordered type `K`
  with a zero in the pipeline, instantiated at `ℝ` for the actual
  haversine distance;
* `pandas.DataFrame.sort_values` on several columns with
  `na_position="last"` is a stable lexicographic sort, embedded as
  `List.insertionSort` (stable) on the key (distance with `none` mapped
  to `⊤`, then city, then name).
-/

namespace DEW

/-- A raw OSM tag mapping: keys to string values (`el["tags"]`). -/
abbrev Tags := List (String × String)

/-- `tags.get(k)` — `None` when the key is absent. -/
def tget (tags : Tags) (k : String) : Option String :=
  tags.lookup k

/-- `tags.get(k, d)` — default value when the key is absent. -/
def tgetD (tags : Tags) (k : String) (d : String) : String :=
  (tags.lookup k).getD d

/-- Python substring test `needle in hay` on strings. -/
def strContains (hay needle : String) : Bool :=
  decide (needle.data <:+: hay.data)

/-- `pick(d, *keys)` from app.py: first truthy (non-empty) value among
the given keys, else `""`. -/
def pick (d : Tags) : List String → String
  | [] => ""
  | k :: ks =>
    match d.lookup k with
    | some v => if v = "" then pick d ks else v
    | none => pick d ks

/-- Python `s.lower()`, embedded characterwise. -/
def pyLower (s : String) : String :=
  ⟨s.data.map Char.toLower⟩

/-- Python `s.strip()`, embedded characterwise: drop leading and
trailing whitespace. -/
def pyStrip (s : String) : String :=
  ⟨((s.data.dropWhile Char.isWhitespace).reverse.dropWhile Char.isWhitespace).reverse⟩

/-- `norm(s)` from app.py: strip surrounding whitespace. -/
def norm (s : String) : String :=
  pyStrip s

/-- `full_address(tags)` from app.py: space-join of the non-empty raw
street and house-number tag values. -/
def full_address (tags : Tags) : String :=
  String.intercalate " "
    (([tgetD tags "addr:street" "", tgetD tags "addr:housenumber" ""]).filter
      (fun p => p ≠ ""))

/-- The repair-subtype substrings tested on the `repair` tag value
(app.py line 193). -/
def vehicleWords : List String :=
  ["car", "vehicle", "auto", "automobile", "cars"]

/-- The service substrings tested on the concatenated service tag values
(app.py line 197). -/
def serviceWords : List String :=
  ["vehicle", "repair", "service", "yes"]

/-- The category classifier: the `if/elif` chain of app.py lines 190–202,
producing the `Typ` label. -/
def classify (tags : Tags) : String :=
  if tget tags "shop" = some "car_repair" ∨ tget tags "amenity" = some "car_repair" then
    "Warsztat"
  else if tget tags "shop" = some "repair" ∧
      vehicleWords.any (fun k => strContains (tgetD tags "repair" "") k) = true then
    "Naprawy (shop=repair)"
  else if tget tags "shop" = some "car" then
    if serviceWords.any (fun x =>
        strContains (tgetD tags "service" "" ++ " " ++ tgetD tags "service:vehicle" ""
          ++ " " ++ tgetD tags "service:vehicle:car_repair" "") x) = true then
      "Salon z serwisem"
    else "Inne"
  else if tget tags "shop" = some "tyres" then
    "Wulkanizacja"
  else if tget tags "shop" = some "car_parts" then
    "Sklep z częściami"
  else
    "Inne"

/-- Rule 1 predicate: general repair shop or amenity. -/
def isWorkshopRule (tags : Tags) : Bool :=
  decide (tget tags "shop" = some "car_repair" ∨ tget tags "amenity" = some "car_repair")

/-- Rule 2 predicate: generic repair shop with a vehicle-related
repair-subtype substring. -/
def isRepairRule (tags : Tags) : Bool :=
  decide (tget tags "shop" = some "repair") &&
    vehicleWords.any (fun k => strContains (tgetD tags "repair" "") k)

/-- Rule 3 predicate: car dealership with a matching service substring in
the three concatenated service tag values. -/
def isDealerRule (tags : Tags) : Bool :=
  decide (tget tags "shop" = some "car") &&
    serviceWords.any (fun x =>
      strContains (tgetD tags "service" "" ++ " " ++ tgetD tags "service:vehicle" ""
        ++ " " ++ tgetD tags "service:vehicle:car_repair" "") x)

/-- Rule 4 predicate: tyre shop. -/
def isTyresRule (tags : Tags) : Bool :=
  decide (tget tags "shop" = some "tyres")

/-- Rule 5 predicate: car-parts shop. -/
def isPartsRule (tags : Tags) : Bool :=
  decide (tget tags "shop" = some "car_parts")

/-- Modelled from the spec: the classifier as an ordered list of
(predicate, label) pairs, evaluated in sequence, first match wins,
default label "Inne" ("Other"). -/
def classifyRules : List ((Tags → Bool) × String) :=
  [(isWorkshopRule, "Warsztat"),
   (isRepairRule, "Naprawy (shop=repair)"),
   (isDealerRule, "Salon z serwisem"),
   (isTyresRule, "Wulkanizacja"),
   (isPartsRule, "Sklep z częściami")]

/-- Modelled from the spec: evaluate an ordered rule list, returning the
label of the first matching predicate, else the default "Inne". -/
def firstMatchLabel (rules : List ((Tags → Bool) × String)) (tags : Tags) : String :=
  match rules with
  | [] => "Inne"
  | (p, lab) :: rs => if p tags then lab else firstMatchLabel rs tags

/-- The six labels the classifier can produce. -/
def allLabels : List String :=
  ["Warsztat", "Naprawy (shop=repair)", "Salon z serwisem",
   "Wulkanizacja", "Sklep z częściami", "Inne"]

/-- One raw Overpass element: a tag mapping plus optional direct
coordinates and optional "center" coordinates.  Coordinates are drawn
from an abstract ordered numeric type `K` standing for Python floats. -/
structure Element (K : Type) where
  tags : Tags
  lat : Option K
  lon : Option K
  center_lat : Option K
  center_lon : Option K

/-- One output row of `rows_from_elements` (its Polish column names kept
as field names). -/
structure Row (K : Type) where
  nazwa : String
  ulica : String
  nr : String
  kod : String
  miasto : String
  adres : String
  telefon : String
  www : String
  lat : Option K
  lon : Option K
  typ : String
  dist : Option K

/-- Python truthiness of a nullable float: present and nonzero
(`None` and `0.0` are falsy). -/
def truthy {K : Type} [Zero K] [DecidableEq K] : Option K → Bool
  | none => false
  | some x => decide (x ≠ 0)

/-- Python `a or b` on nullable floats: `a` when truthy, else `b`. -/
def pyOr {K : Type} [Zero K] [DecidableEq K] (a b : Option K) : Option K :=
  if truthy a then a else b

/-- `el.get("lat") or (el.get("center", {}) or {}).get("lat")`
(app.py line 186). -/
def resolvedLat {K : Type} [Zero K] [DecidableEq K] (el : Element K) : Option K :=
  pyOr el.lat el.center_lat

/-- `el.get("lon") or (el.get("center", {}) or {}).get("lon")`
(app.py line 187). -/
def resolvedLon {K : Type} [Zero K] [DecidableEq K] (el : Element K) : Option K :=
  pyOr el.lon el.center_lon

/-- The per-element body of the loop in `rows_from_elements`
(app.py lines 180–224): extract fields, classify, resolve coordinates
and compute the distance.  `hav` abstracts `haversine_km`; the model is
instantiated with the real one below. -/
def rowOfElement {K : Type} [Zero K] [DecidableEq K]
    (hav : Option K → Option K → Option K → Option K → Option K)
    (lat0 lon0 : K) (el : Element K) : Row K :=
  let tags := el.tags
  let name := if norm (tgetD tags "name" "") = "" then "(brak nazwy)"
              else norm (tgetD tags "name" "")
  let street := norm (tgetD tags "addr:street" "")
  let nr := norm (tgetD tags "addr:housenumber" "")
  let kod := norm (tgetD tags "addr:postcode" "")
  let miasto := norm (pick tags ["addr:city", "addr:town", "addr:village"])
  let lat := resolvedLat el
  let lon := resolvedLon el
  let phone := norm (pick tags ["contact:phone", "phone"])
  let www := norm (pick tags ["contact:website", "website"])
  let typ := classify tags
  let dist := if truthy lat && truthy lon then hav (some lat0) (some lon0) lat lon
              else none
  ⟨name, street, nr, kod, miasto, full_address tags, phone, www, lat, lon, typ, dist⟩

/-- The deduplication key (app.py line 205): lower-cased
(name, street, house number, postal code, city). -/
def rowKey {K : Type} (r : Row K) : String × String × String × String × String :=
  (pyLower r.nazwa, pyLower r.ulica, pyLower r.nr, pyLower r.kod, pyLower r.miasto)

/-- The dedup pass with an explicit `seen` set (app.py lines 204–208):
skip a row whose key was seen, otherwise keep it and record its key. -/
def dedupAux {K : Type} (seen : List (String × String × String × String × String)) :
    List (Row K) → List (Row K)
  | [] => []
  | r :: rs =>
    if rowKey r ∈ seen then dedupAux seen rs
    else r :: dedupAux (rowKey r :: seen) rs

/-- The dedup pass starting from an empty `seen` set. -/
def dedup {K : Type} (rows : List (Row K)) : List (Row K) :=
  dedupAux [] rows

/-- The sort key of the distance column: `None`/`NaN` maps to `⊤`
(`na_position="last"`), a present value to itself. -/
def distKey {K : Type} (o : Option K) : WithTop K :=
  match o with
  | none => ⊤
  | some x => (x : WithTop K)

/-- The lexicographic sort key of
`sort_values(["Dystans (km)", "Miasto", "Nazwa"], na_position="last")`. -/
def sortKey {K : Type} (r : Row K) : (WithTop K) ×ₗ (String ×ₗ String) :=
  toLex (distKey r.dist, toLex (r.miasto, r.nazwa))

/-- The row comparison used by the final sort. -/
def rowLe {K : Type} [LinearOrder K] (a b : Row K) : Prop :=
  sortKey a ≤ sortKey b

instance {K : Type} [LinearOrder K] : DecidableRel (@rowLe K _) :=
  fun a b => inferInstanceAs (Decidable (sortKey a ≤ sortKey b))

instance {K : Type} [LinearOrder K] : IsTotal (Row K) rowLe :=
  ⟨fun a b => le_total (sortKey a) (sortKey b)⟩

instance {K : Type} [LinearOrder K] : IsTrans (Row K) rowLe :=
  ⟨fun _ _ _ hab hbc => le_trans hab hbc⟩

/-- The final sort (app.py line 231), embedded as a stable sort on
`sortKey`. -/
def sortRows {K : Type} [LinearOrder K] (rows : List (Row K)) : List (Row K) :=
  List.insertionSort rowLe rows

/-- `rows_from_elements(elements, lat0, lon0, do_dedupe)` (app.py
lines 176–232): build one row per element, dedup when enabled, sort.
The in-loop dedup of the source is the same as deduplicating the mapped
list, because the row of an element and its key are computed purely
per element before the skip test. -/
def rows_from_elements {K : Type} [LinearOrder K] [Zero K]
    (hav : Option K → Option K → Option K → Option K → Option K)
    (elements : List (Element K)) (lat0 lon0 : K) (do_dedupe : Bool) : List (Row K) :=
  let rows := elements.map (rowOfElement hav lat0 lon0)
  sortRows (if do_dedupe then dedup rows else rows)

/-- `math.radians` over the reals. -/
noncomputable def radians (x : ℝ) : ℝ :=
  x * Real.pi / 180

/-- `math.atan2(y, x)` over the reals (standard quadrant-aware
arctangent). -/
noncomputable def atan2 (y x : ℝ) : ℝ :=
  if 0 < x then Real.arctan (y / x)
  else if x < 0 ∧ 0 ≤ y then Real.arctan (y / x) + Real.pi
  else if x < 0 ∧ y < 0 then Real.arctan (y / x) - Real.pi
  else if x = 0 ∧ 0 < y then Real.pi / 2
  else if x = 0 ∧ y < 0 then -(Real.pi / 2)
  else 0

/-- Python `round(x, 2)` over the reals: round to 2 decimal places. -/
noncomputable def round2 (x : ℝ) : ℝ :=
  (round (x * 100) : ℤ) / 100

/-- The body of `haversine_km` (app.py lines 47–53) on present
coordinates: the haversine formula with Earth radius 6371.0088 km,
rounded to 2 decimals. -/
noncomputable def haversineR (lat1 lon1 lat2 lon2 : ℝ) : ℝ :=
  let R : ℝ := 6371.0088
  let phi1 := radians lat1
  let phi2 := radians lat2
  let dphi := radians (lat2 - lat1)
  let dlmb := radians (lon2 - lon1)
  let a := Real.sin (dphi / 2) ^ 2 +
    Real.cos phi1 * Real.cos phi2 * Real.sin (dlmb / 2) ^ 2
  let c := 2 * atan2 (Real.sqrt a) (Real.sqrt (1 - a))
  round2 (R * c)

/-- `haversine_km` (app.py lines 44–53): `None` when any of the four
coordinates is `None`, otherwise the rounded haversine distance. -/
noncomputable def haversine_km :
    Option ℝ → Option ℝ → Option ℝ → Option ℝ → Option ℝ
  | some lat1, some lon1, some lat2, some lon2 =>
    some (haversineR lat1 lon1 lat2 lon2)
  | _, _, _, _ => none

/-- The query blocks assembled by `build_overpass_query` (app.py
lines 111–150), with the interpolated radius and coordinates abstracted
as the strings Python would substitute. -/
def build_overpass_blocks (radius_m lat lon : String)
    (want_workshops want_parts want_tyres : Bool) : List String :=
  let ar := "(around:" ++ radius_m ++ "," ++ lat ++ "," ++ lon ++ ");"
  (if want_workshops then
    ["node[\"shop\"=\"car_repair\"]" ++ ar,
     "way[\"shop\"=\"car_repair\"]" ++ ar,
     "relation[\"shop\"=\"car_repair\"]" ++ ar,
     "node[\"amenity\"=\"car_repair\"]" ++ ar,
     "way[\"amenity\"=\"car_repair\"]" ++ ar,
     "relation[\"amenity\"=\"car_repair\"]" ++ ar,
     "node[\"shop\"=\"repair\"][\"repair\"~\"^car$|^auto$|^vehicle$|^automobile$|cars?\"]" ++ ar,
     "way[\"shop\"=\"repair\"][\"repair\"~\"^car$|^auto$|^vehicle$|^automobile$|cars?\"]" ++ ar,
     "relation[\"shop\"=\"repair\"][\"repair\"~\"^car$|^auto$|^vehicle$|^automobile$|cars?\"]" ++ ar,
     "node[\"craft\"=\"mechanic\"]" ++ ar,
     "way[\"craft\"=\"mechanic\"]" ++ ar,
     "relation[\"craft\"=\"mechanic\"]" ++ ar,
     "node[\"shop\"=\"car\"][\"service\"~\"vehicle|repair|service\"]" ++ ar,
     "way[\"shop\"=\"car\"][\"service\"~\"vehicle|repair|service\"]" ++ ar,
     "relation[\"shop\"=\"car\"][\"service\"~\"vehicle|repair|service\"]" ++ ar,
     "node[\"shop\"=\"car\"][\"service:vehicle\"~\"yes|repair|service\"]" ++ ar,
     "way[\"shop\"=\"car\"][\"service:vehicle\"~\"yes|repair|service\"]" ++ ar,
     "relation[\"shop\"=\"car\"][\"service:vehicle\"~\"yes|repair|service\"]" ++ ar,
     "node[\"shop\"=\"car\"][\"service:vehicle:car_repair\"~\"yes\"]" ++ ar,
     "way[\"shop\"=\"car\"][\"service:vehicle:car_repair\"~\"yes\"]" ++ ar,
     "relation[\"shop\"=\"car\"][\"service:vehicle:car_repair\"~\"yes\"]" ++ ar]
   else []) ++
  (if want_parts then
    ["node[\"shop\"=\"car_parts\"]" ++ ar,
     "way[\"shop\"=\"car_parts\"]" ++ ar,
     "relation[\"shop\"=\"car_parts\"]" ++ ar]
   else []) ++
  (if want_tyres then
    ["node[\"shop\"=\"tyres\"]" ++ ar,
     "way[\"shop\"=\"tyres\"]" ++ ar,
     "relation[\"shop\"=\"tyres\"]" ++ ar]
   else [])

/-! ## Helper lemmas -/

theorem isWorkshopRule_iff (tags : Tags) :
    isWorkshopRule tags = true ↔
      (tget tags "shop" = some "car_repair" ∨ tget tags "amenity" = some "car_repair") := by
  simp [isWorkshopRule]

theorem isRepairRule_iff (tags : Tags) :
    isRepairRule tags = true ↔
      (tget tags "shop" = some "repair" ∧
        vehicleWords.any (fun k => strContains (tgetD tags "repair" "") k) = true) := by
  simp [isRepairRule]

theorem isDealerRule_iff (tags : Tags) :
    isDealerRule tags = true ↔
      (tget tags "shop" = some "car" ∧
        serviceWords.any (fun x =>
          strContains (tgetD tags "service" "" ++ " " ++ tgetD tags "service:vehicle" ""
            ++ " " ++ tgetD tags "service:vehicle:car_repair" "") x) = true) := by
  simp [isDealerRule]

theorem isTyresRule_iff (tags : Tags) :
    isTyresRule tags = true ↔ tget tags "shop" = some "tyres" := by
  simp [isTyresRule]

theorem isPartsRule_iff (tags : Tags) :
    isPartsRule tags = true ↔ tget tags "shop" = some "car_parts" := by
  simp [isPartsRule]

theorem dedupAux_filter {K : Type} (k : String × String × String × String × String)
    (l : List (Row K)) :
    ∀ seen, (dedupAux seen l).filter (fun r => rowKey r = k) =
      if k ∈ seen then [] else (l.filter (fun r => rowKey r = k)).take 1 := by
  induction l with
  | nil => intro seen; simp [dedupAux]
  | cons r rs ih =>
    intro seen
    by_cases hm : rowKey r ∈ seen
    · by_cases hrk : rowKey r = k
      · subst hrk
        simp [dedupAux, hm, ih]
      · simp [dedupAux, hm, ih, hrk]
    · by_cases hrk : rowKey r = k
      · subst hrk
        simp [dedupAux, hm, ih]
      · have hkr : k ≠ rowKey r := fun h => hrk h.symm
        simp [dedupAux, hm, ih, hrk, hkr]

theorem dedupAux_sublist {K : Type} (l : List (Row K)) :
    ∀ seen, List.Sublist (dedupAux seen l) l := by
  induction l with
  | nil => intro seen; simp [dedupAux]
  | cons r rs ih =>
    intro seen
    by_cases hm : rowKey r ∈ seen
    · simpa [dedupAux, hm] using (ih seen).trans (List.sublist_cons_self r rs)
    · simpa [dedupAux, hm] using (ih (rowKey r :: seen)).cons₂ r

theorem mem_dedupAux_notin_seen {K : Type} (l : List (Row K)) :
    ∀ seen r, r ∈ dedupAux seen l → rowKey r ∉ seen := by
  induction l with
  | nil => intro seen r h; simp [dedupAux] at h
  | cons a rs ih =>
    intro seen r h
    by_cases hm : rowKey a ∈ seen
    · rw [dedupAux, if_pos hm] at h
      exact ih seen r h
    · rw [dedupAux, if_neg hm] at h
      rcases List.mem_cons.mp h with rfl | h
      · exact hm
      · have := ih (rowKey a :: seen) r h
        exact fun hs => this (List.mem_cons_of_mem _ hs)

theorem dedupAux_key_pairwise {K : Type} (l : List (Row K)) :
    ∀ seen, (dedupAux seen l).Pairwise (fun a b => rowKey a ≠ rowKey b) := by
  induction l with
  | nil => intro seen; simp [dedupAux]
  | cons a rs ih =>
    intro seen
    by_cases hm : rowKey a ∈ seen
    · rw [dedupAux, if_pos hm]; exact ih seen
    · rw [dedupAux, if_neg hm]
      refine List.pairwise_cons.mpr ⟨?_, ih _⟩
      intro b hb hk
      exact mem_dedupAux_notin_seen rs _ b hb (hk ▸ List.mem_cons_self _ _)

theorem dedupAux_eq_self {K : Type} (l : List (Row K)) :
    ∀ seen, (∀ r ∈ l, rowKey r ∉ seen) →
      l.Pairwise (fun a b => rowKey a ≠ rowKey b) → dedupAux seen l = l := by
  induction l with
  | nil => intro seen _ _; simp [dedupAux]
  | cons a rs ih =>
    intro seen hseen hpw
    rw [dedupAux, if_neg (hseen a (List.mem_cons_self _ _))]
    obtain ⟨ha, hpw'⟩ := List.pairwise_cons.mp hpw
    refine congrArg (a :: ·) (ih _ ?_ hpw')
    intro r hr
    simp only [List.mem_cons]
    rintro (hk | hk)
    · exact ha r hr hk.symm
    · exact hseen r (List.mem_cons_of_mem _ hr) hk

theorem filter_orderedInsert_sortKey {K : Type} [LinearOrder K]
    (k : (WithTop K) ×ₗ (String ×ₗ String)) (a : Row K) (l : List (Row K)) :
    (List.orderedInsert rowLe a l).filter (fun x => sortKey x = k) =
      if sortKey a = k then a :: l.filter (fun x => sortKey x = k)
      else l.filter (fun x => sortKey x = k) := by
  induction l with
  | nil => by_cases h : sortKey a = k <;> simp [List.orderedInsert, h]
  | cons b l ih =>
    by_cases hle : rowLe a b
    · by_cases h : sortKey a = k <;> simp [List.orderedInsert, hle, h]
    · have hab : sortKey a ≠ sortKey b := fun he => hle (le_of_eq he)
      by_cases hb : sortKey b = k
      · have ha : sortKey a ≠ k := fun h => hab (h.trans hb.symm)
        simp [List.orderedInsert, hle, hb, ha, ih]
      · by_cases h : sortKey a = k <;> simp [List.orderedInsert, hle, hb, h, ih]

theorem filter_sortRows_sortKey {K : Type} [LinearOrder K]
    (k : (WithTop K) ×ₗ (String ×ₗ String)) (l : List (Row K)) :
    (sortRows l).filter (fun x => sortKey x = k) =
      l.filter (fun x => sortKey x = k) := by
  induction l with
  | nil => rfl
  | cons a l ih =>
    rw [sortRows, List.insertionSort]
    rw [show List.insertionSort rowLe l = sortRows l from rfl] at *
    rw [filter_orderedInsert_sortKey]
    by_cases h : sortKey a = k <;> simp [h, ih]

theorem rowLe_none {K : Type} [LinearOrder K] {a b : Row K}
    (h : rowLe a b) (ha : a.dist = none) : b.dist = none := by
  unfold rowLe sortKey at h
  rw [ha] at h
  rcases (Prod.Lex.le_iff _ _).mp h with hlt | ⟨heq, _⟩
  · exact absurd hlt (by simp [distKey])
  · cases hb : b.dist with
    | none => rfl
    | some x => rw [hb] at heq; simp [distKey] at heq

/-! ## Claim theorems -/

/-- C5 counterexample: the combined-address output is not trimmed of
leading/trailing whitespace — on the tag mapping
`addr:street = " A"` the field is `" A"`, which differs from its
stripped form. -/
theorem c5_counterexample :
    full_address [("addr:street", " A")] ≠
      pyStrip (full_address [("addr:street", " A")]) := by
  decide

/-- C5 (amended): the combined-address output is the concatenation of
the raw street and house-number tag values separated by a single space,
omitting whichever is empty and empty when both are; it is taken from
the raw tag values and is not trimmed. -/
theorem c5_full_address_join (tags : Tags) :
    full_address tags =
      (if tgetD tags "addr:street" "" = "" then tgetD tags "addr:housenumber" ""
       else if tgetD tags "addr:housenumber" "" = "" then tgetD tags "addr:street" ""
       else tgetD tags "addr:street" "" ++ " " ++ tgetD tags "addr:housenumber" "") := by
  unfold full_address
  by_cases hs : tgetD tags "addr:street" "" = "" <;>
    by_cases hn : tgetD tags "addr:housenumber" "" = "" <;>
      simp [hs, hn, List.filter] <;> rfl

/-- C7 counterexample: a tag mapping with `shop=repair` whose `repair`
value matches a vehicle substring nevertheless classifies as
"Warsztat" (Workshop) when `amenity=car_repair` is also present, so the
claimed unconditional iff fails. -/
theorem c7_counterexample :
    classify [("shop", "repair"), ("amenity", "car_repair"), ("repair", "car")]
        = "Warsztat" ∧
      vehicleWords.any (fun k =>
        strContains
          (tgetD [("shop", "repair"), ("amenity", "car_repair"), ("repair", "car")]
            "repair" "") k) = true ∧
      "Warsztat" ≠ "Naprawy (shop=repair)" := by
  decide

/-- C7 (amended): for every tag mapping with `shop=repair` and without
`amenity=car_repair`, the record classifies as "Naprawy (shop=repair)"
iff the `repair` value contains one of the case-sensitive substrings
"car", "vehicle", "auto", "automobile", "cars" — literal substring
matching, so e.g. a value "scars" matches. -/
theorem c7_repair_substring (tags : Tags)
    (hshop : tget tags "shop" = some "repair")
    (hamen : tget tags "amenity" ≠ some "car_repair") :
    classify tags = "Naprawy (shop=repair)" ↔
      vehicleWords.any (fun k => strContains (tgetD tags "repair" "") k) = true := by
  by_cases h : vehicleWords.any (fun k => strContains (tgetD tags "repair" "") k) = true <;>
    simp [classify, hshop, hamen, h]

/-- C7 witness: the value "scars" matches via the substring "cars". -/
theorem c7_witness :
    classify [("shop", "repair"), ("repair", "scars")] = "Naprawy (shop=repair)" :=
  (c7_repair_substring [("shop", "repair"), ("repair", "scars")]
    (by decide) (by decide)).mpr (by decide)

/-- C10: a record carrying `craft=mechanic` but no `shop` and no
`amenity` tag classifies as "Inne" (Other), not "Warsztat" (Workshop),
even though the workshop Overpass query explicitly fetches
`craft=mechanic` elements (its block list contains the corresponding
selector for every radius/coordinate interpolation). -/
theorem c10_craft_mechanic_other (tags : Tags)
    (hshop : tget tags "shop" = none) (hamen : tget tags "amenity" = none)
    (_hcraft : tget tags "craft" = some "mechanic") :
    classify tags = "Inne" ∧
      ∀ (radius lat lon : String) (wp wt : Bool),
        ("node[\"craft\"=\"mechanic\"]" ++
            ("(around:" ++ radius ++ "," ++ lat ++ "," ++ lon ++ ");"))
          ∈ build_overpass_blocks radius lat lon true wp wt := by
  constructor
  · simp [classify, hshop, hamen]
  · intro radius lat lon wp wt
    simp [build_overpass_blocks]

/-- C10 witness at the concrete record `{craft: mechanic}`. -/
theorem c10_witness :
    classify [("craft", "mechanic")] = "Inne" :=
  (c10_craft_mechanic_other [("craft", "mechanic")]
    (by decide) (by decide) (by decide)).1

/-- C3: the classifier agrees with the spec's ordered first-match rule
list (Workshop, Repairs, Dealership-with-service, Tyre service, Parts
shop, default Other), always returns exactly one of the six labels, and
any record matching the Workshop rule — in particular one also carrying
the tyre-service tag — classifies as "Warsztat". -/
theorem c3_classifier_first_match (tags : Tags) :
    classify tags = firstMatchLabel classifyRules tags ∧
      classify tags ∈ allLabels ∧
      (isWorkshopRule tags = true → classify tags = "Warsztat") := by
  refine ⟨?_, ?_, ?_⟩
  · simp only [firstMatchLabel, classifyRules, isWorkshopRule_iff, isRepairRule_iff,
      isDealerRule_iff, isTyresRule_iff, isPartsRule_iff, classify]
    split_ifs <;> simp_all
  · unfold classify
    split_ifs <;> simp [allLabels]
  · intro h
    rw [isWorkshopRule_iff] at h
    simp [classify, h]

/-- C3 witness: a record with both the workshop tag (`amenity=car_repair`)
and the tyre-service tag (`shop=tyres`) classifies as "Warsztat". -/
theorem c3_witness :
    classify [("amenity", "car_repair"), ("shop", "tyres")] = "Warsztat" :=
  (c3_classifier_first_match [("amenity", "car_repair"), ("shop", "tyres")]).2.2
    (by decide)

/-- C1: for every non-empty input, the returned row sequence is sorted
by the lexicographic key (distance ascending with null distances mapped
to `⊤`, then city, then name), null distances come after all non-null
distances, and the ordering is stable: records tying on all three sort
keys appear in their pre-sort (post-dedup) order. -/
theorem c1_resultset_sorted_stable (K : Type) [LinearOrder K] [Zero K]
    (hav : Option K → Option K → Option K → Option K → Option K)
    (elements : List (Element K)) (lat0 lon0 : K) (do_dedupe : Bool)
    (_hne : elements ≠ []) :
    List.Sorted rowLe (rows_from_elements hav elements lat0 lon0 do_dedupe) ∧
      (rows_from_elements hav elements lat0 lon0 do_dedupe).Pairwise
        (fun a b => a.dist = none → b.dist = none) ∧
      ∀ k, (rows_from_elements hav elements lat0 lon0 do_dedupe).filter
          (fun r => sortKey r = k) =
        (if do_dedupe then dedup (elements.map (rowOfElement hav lat0 lon0))
          else elements.map (rowOfElement hav lat0 lon0)).filter
          (fun r => sortKey r = k) := by
  have hsorted :
      List.Sorted rowLe (rows_from_elements hav elements lat0 lon0 do_dedupe) := by
    simp only [rows_from_elements, sortRows]
    exact List.sorted_insertionSort rowLe _
  refine ⟨hsorted, hsorted.imp (fun h ha => rowLe_none h ha), ?_⟩
  intro k
  simp only [rows_from_elements]
  exact filter_sortRows_sortKey k _

/-- C1 witness at a one-element input list. -/
theorem c1_witness :
    List.Sorted rowLe
      (rows_from_elements (fun _ _ _ _ => none)
        ([⟨[], none, none, none, none⟩] : List (Element ℚ)) 0 0 true) :=
  (c1_resultset_sorted_stable ℚ (fun _ _ _ _ => none)
    [⟨[], none, none, none, none⟩] 0 0 true (by simp)).1

/-- C9: a direct coordinate equal to 0.0 is falsy, so the pipeline falls
back to the "center" coordinate for it; and when a resolved coordinate
is 0.0 the distance field is null even though both coordinates are
present. -/
theorem c9_zero_coordinates_absent (K : Type) [LinearOrder K] [Zero K]
    (hav : Option K → Option K → Option K → Option K → Option K)
    (lat0 lon0 : K) (el : Element K) :
    (el.lat = some 0 → resolvedLat el = el.center_lat) ∧
      (el.lon = some 0 → resolvedLon el = el.center_lon) ∧
      ((resolvedLat el = some 0 ∨ resolvedLon el = some 0) →
        (rowOfElement hav lat0 lon0 el).dist = none) := by
  refine ⟨?_, ?_, ?_⟩
  · intro h; simp [resolvedLat, pyOr, truthy, h]
  · intro h; simp [resolvedLon, pyOr, truthy, h]
  · intro h
    rcases h with h | h <;> simp [rowOfElement, h, truthy]

/-- C9 witness: a record with direct latitude 0.0 takes the center
latitude; a record whose resolved latitude is 0.0 has a null distance
although both resolved coordinates are present. -/
theorem c9_witness :
    resolvedLat (⟨[], some 0, some 1, some 7, some 8⟩ : Element ℚ) = some 7 ∧
      (rowOfElement (fun _ _ _ _ => some 99) 3 4
        (⟨[], some 0, some 1, some 0, some 2⟩ : Element ℚ)).dist = none :=
  ⟨(c9_zero_coordinates_absent ℚ (fun _ _ _ _ => some 99) 3 4
      ⟨[], some 0, some 1, some 7, some 8⟩).1 rfl,
   (c9_zero_coordinates_absent ℚ (fun _ _ _ _ => some 99) 3 4
      ⟨[], some 0, some 1, some 0, some 2⟩).2.2 (Or.inl (by decide))⟩

/-- C2: with deduplication enabled the pipeline keeps, for every
DedupKey, exactly the first record bearing it in iteration order and
drops all later ones (the surviving sequence is a sublist of the input,
and per key it is the one-element prefix of the key's occurrences);
records equal up to letter-casing of the five key fields share a
DedupKey; the dedup-enabled pipeline output is a permutation of the
deduplicated row sequence; with deduplication disabled every input
record appears in the output. -/
theorem c2_dedup_first_seen (K : Type) [LinearOrder K] [Zero K]
    (hav : Option K → Option K → Option K → Option K → Option K)
    (elements : List (Element K)) (lat0 lon0 : K) :
    (∀ l : List (Row K),
        List.Sublist (dedup l) l ∧
        ∀ k, (dedup l).filter (fun r => rowKey r = k) =
          (l.filter (fun r => rowKey r = k)).take 1) ∧
      (∀ r s : Row K,
        pyLower r.nazwa = pyLower s.nazwa → pyLower r.ulica = pyLower s.ulica →
        pyLower r.nr = pyLower s.nr → pyLower r.kod = pyLower s.kod →
        pyLower r.miasto = pyLower s.miasto → rowKey r = rowKey s) ∧
      List.Perm (rows_from_elements hav elements lat0 lon0 true)
        (dedup (elements.map (rowOfElement hav lat0 lon0))) ∧
      ∀ r ∈ elements.map (rowOfElement hav lat0 lon0),
        r ∈ rows_from_elements hav elements lat0 lon0 false := by
  refine ⟨?_, ?_, ?_, ?_⟩
  · intro l
    exact ⟨dedupAux_sublist l [], fun k => by simpa using dedupAux_filter k l []⟩
  · intro r s h1 h2 h3 h4 h5
    simp [rowKey, h1, h2, h3, h4, h5]
  · simpa [rows_from_elements, sortRows] using
      List.perm_insertionSort rowLe (dedup (elements.map (rowOfElement hav lat0 lon0)))
  · intro r hr
    simpa [rows_from_elements, sortRows, List.mem_insertionSort] using hr

/-- C2 witness: two rows differing only in (ASCII) letter-casing of the
five key fields share a DedupKey. -/
theorem c2_witness :
    rowKey (⟨"Auto Mueller", "Main St", "5", "10585", "Berlin",
        "", "", "", none, none, "Inne", none⟩ : Row ℚ) =
      rowKey (⟨"AUTO MUELLER", "MAIN ST", "5", "10585", "BERLIN",
        "x", "y", "z", some 1, some 2, "Warsztat", some 3⟩ : Row ℚ) :=
  (c2_dedup_first_seen ℚ (fun _ _ _ _ => none) [] 0 0).2.1 _ _
    (by decide) (by decide) (by decide) (by decide) (by decide)

/-- C8: the dedup pass is idempotent — deduplicating an
already-deduplicated row sequence drops nothing and returns it
unchanged. -/
theorem c8_dedup_idempotent {K : Type} (l : List (Row K)) :
    dedup (dedup l) = dedup l := by
  unfold dedup
  refine dedupAux_eq_self _ _ (fun r _ => ?_) (dedupAux_key_pairwise l [])
  simp

/-- C4: the distance calculator propagates nullability of any of its
four coordinate arguments, and a pipeline record whose resolved
latitude or longitude is missing gets a null distance field. -/
theorem c4_distance_null_propagation :
    (∀ a b c d : Option ℝ,
        a = none ∨ b = none ∨ c = none ∨ d = none →
        haversine_km a b c d = none) ∧
      ∀ (lat0 lon0 : ℝ) (el : Element ℝ),
        resolvedLat el = none ∨ resolvedLon el = none →
        (rowOfElement haversine_km lat0 lon0 el).dist = none := by
  constructor
  · intro a b c d h
    cases a <;> cases b <;> cases c <;> cases d <;> simp_all [haversine_km]
  · intro lat0 lon0 el h
    rcases h with h | h <;> simp [rowOfElement, h, truthy]

/-- C4 witness: a null first coordinate, and an element with no
coordinates at all, both yield a null distance. -/
theorem c4_witness :
    haversine_km none (some 0) (some 0) (some 0) = none ∧
      (rowOfElement haversine_km 0 0 (⟨[], none, none, none, none⟩ : Element ℝ)).dist
        = none :=
  ⟨c4_distance_null_propagation.1 none (some 0) (some 0) (some 0) (Or.inl rfl),
   c4_distance_null_propagation.2 0 0 ⟨[], none, none, none, none⟩ (Or.inl rfl)⟩

/-- C6: on present coordinates the distance calculator — the haversine
formula with Earth radius 6371.0088 km rounded to 2 decimals — is
symmetric in its two endpoints and vanishes on identical points. -/
theorem c6_haversine_symm_zero (lat1 lon1 lat2 lon2 : ℝ) :
    haversine_km (some lat1) (some lon1) (some lat2) (some lon2) =
        haversine_km (some lat2) (some lon2) (some lat1) (some lon1) ∧
      haversine_km (some lat1) (some lon1) (some lat1) (some lon1) = some 0 := by
  have key : ∀ x : ℝ, Real.sin (-x / 2) ^ 2 = Real.sin (x / 2) ^ 2 := fun x => by
    rw [neg_div, Real.sin_neg, neg_sq]
  constructor
  · show some (haversineR lat1 lon1 lat2 lon2) = some (haversineR lat2 lon2 lat1 lon1)
    have h1 : radians (lat1 - lat2) = -radians (lat2 - lat1) := by
      unfold radians; ring
    have h2 : radians (lon1 - lon2) = -radians (lon2 - lon1) := by
      unfold radians; ring
    have ha : Real.sin (radians (lat1 - lat2) / 2) ^ 2 +
        Real.cos (radians lat2) * Real.cos (radians lat1) *
          Real.sin (radians (lon1 - lon2) / 2) ^ 2 =
        Real.sin (radians (lat2 - lat1) / 2) ^ 2 +
        Real.cos (radians lat1) * Real.cos (radians lat2) *
          Real.sin (radians (lon2 - lon1) / 2) ^ 2 := by
      rw [h1, h2, key, key]; ring
    simp only [haversineR, ha]
  · show some (haversineR lat1 lon1 lat1 lon1) = some 0
    have hz : radians (lat1 - lat1) = 0 := by unfold radians; ring
    have hlon : radians (lon1 - lon1) = 0 := by unfold radians; ring
    simp only [haversineR, hz, hlon]
    norm_num [atan2, round2, Real.arctan_zero, Real.sqrt_zero, Real.sqrt_one]

end DEW
